import Mathlib

/-!
Verification of the PercisionTakeoffTool repository: a shallow embedding of
the save worker (`takeofftool/save_worker.py`), the highlight gathering and
aggregation code (`takeofftool/main_window.py`, `main.py`), the per-category
takeoff panels (`takeofftool/panels.py`) and the canvas interaction state
machine (`takeofftool/viewer.py`), together with theorems settling the
specification claims about them.

Coordinates and color components are modelled as rationals; page indices as
integers (PyMuPDF allows negative indices that wrap once); fallible Python
code is modelled with `Option`/`Except`.
-/

namespace Takeoff

/-- A PyMuPDF rectangle: four coordinates, not necessarily normalized. -/
structure Rect where
  x0 : ℚ
  y0 : ℚ
  x1 : ℚ
  y1 : ℚ
deriving DecidableEq, Repr, Inhabited

/-- `fitz.Rect.__and__` (`r & page.rect`): componentwise max/min intersection,
without any clamping of inverted results. -/
def Rect.inter (a b : Rect) : Rect :=
  ⟨max a.x0 b.x0, max a.y0 b.y0, min a.x1 b.x1, min a.y1 b.y1⟩

/-- `fitz.Rect.is_empty`: true when the width or the height is ≤ 0. -/
def Rect.isEmpty (r : Rect) : Bool :=
  r.x1 ≤ r.x0 || r.y1 ≤ r.y0

/-- `fitz.Rect.width` (never negative). -/
def Rect.width (r : Rect) : ℚ := max 0 (r.x1 - r.x0)

/-- `fitz.Rect.height` (never negative). -/
def Rect.height (r : Rect) : ℚ := max 0 (r.y1 - r.y0)

/-- A point in page coordinates. -/
structure Point where
  x : ℚ
  y : ℚ
deriving DecidableEq, Repr

/-- An RGB color as a list of float components (as read from the JSON bundle). -/
abbrev Color := List ℚ

/-- `save_worker.safe_color`: keep the first three components, clamped to [0,1]. -/
def safe_color (rgb : Color) : Color :=
  (rgb.take 3).map (fun c => max 0 (min 1 c))

/-- A loaded PDF document: the page bounds rectangle of each page, in order.
`page_count` is the length of the list. -/
structure Doc where
  pages : List Rect
deriving DecidableEq, Repr

def Doc.page_count (d : Doc) : Nat := d.pages.length

/-- `fitz.Document.load_page`: a negative index wraps once from the end;
anything still out of range raises. Returns the resolved page number. -/
def Doc.load_page (d : Doc) (p : ℤ) : Option Nat :=
  if 0 ≤ p ∧ p < (d.page_count : ℤ) then some p.toNat
  else if -(d.page_count : ℤ) ≤ p ∧ p < 0 then some (p + d.page_count).toNat
  else none

/-- One highlight descriptor of the JSON bundle (`bundle["hl"]` elements). -/
inductive HL where
  | rect (page : ℤ) (r : Rect) (color : Color)
  | line (page : ℤ) (p1 p2 : Point) (width : ℚ) (color : Color)
deriving DecidableEq, Repr

def HL.page : HL → ℤ
  | .rect p _ _ => p
  | .line p _ _ _ _ => p

/-- An annotation added to a page by the worker. A rectangle annotation is
filled with `fill` and has no stroke color; a line annotation is stroked. -/
inductive Annot where
  | rect (page : Nat) (r : Rect) (fill : Color)
  | line (page : Nat) (p1 p2 : Point) (stroke : Color) (borderWidth : ℚ)
deriving DecidableEq, Repr

/-- The worker's per-descriptor processing (`save_worker.main`, loop body):
load the target page (raising on an out-of-range index), then either add one
annotation or skip the descriptor silently. -/
def processHL (d : Doc) (hl : HL) : Except Unit (List Annot) :=
  match d.load_page hl.page with
  | none => .error ()
  | some pg =>
    match hl with
    | .rect _ rc color =>
      let r := rc.inter (d.pages.getD pg default)
      if r.isEmpty || r.width == 0 || r.height == 0 then .ok []
      else .ok [.rect pg r (safe_color color)]
    | .line _ p1 p2 w color =>
      if p1 = p2 then .ok []
      else .ok [.line pg p1 p2 (safe_color color) (max (1/10 : ℚ) w)]

/-- The worker's whole annotation loop: the first raising descriptor aborts
the run, otherwise the added annotations accumulate in order. -/
def processHighlights (d : Doc) : List HL → Except Unit (List Annot)
  | [] => .ok []
  | hl :: rest =>
    match processHL d hl with
    | .error e => .error e
    | .ok a =>
      match processHighlights d rest with
      | .error e => .error e
      | .ok as => .ok (a ++ as)

/-- The serialized output document: the original document plus the
annotations added to it (`doc.save(tmp, ...)`). -/
structure SavedPdf where
  doc : Doc
  annots : List Annot
deriving DecidableEq, Repr

/-- The filesystem as the worker sees it: the destination path's contents (if
the file exists) and the diagnostic log file's contents (if written). -/
structure FS where
  dest : Option SavedPdf
  log : Option String
deriving DecidableEq, Repr

/-- `save_worker.main`: `doc?` is `none` when `fitz.open` raises on the input
bytes, `saveOk` is false when `doc.save` raises. On any exception the
traceback is logged and the exit status is 1; only on full success is the
temporary file moved over `dest`. Returns the exit status and the resulting
filesystem. -/
def workerMain (fs : FS) (doc? : Option Doc) (hls : List HL) (saveOk : Bool) :
    Nat × FS :=
  match doc? with
  | none => (1, { fs with log := some "traceback" })
  | some d =>
    match processHighlights d hls with
    | .error _ => (1, { fs with log := some "traceback" })
    | .ok annots =>
      if saveOk then (0, { fs with dest := some ⟨d, annots⟩ })
      else (1, { fs with log := some "traceback" })

/-- The geometry of a canvas graphics item: `HighlightItem` stores a
rectangle, `LineItem` stores a line. -/
inductive Geom where
  | rect (r : Rect)
  | line (p1 p2 : Point)
deriving DecidableEq, Repr

/-- A canvas graphics item (`HighlightItem` / `LineItem`): `id` models Python
object identity, `page` is the page tag (`-1` while unassigned), `width` the
pen width (lines only, constructed as 2). -/
structure Item where
  id : Nat
  geom : Geom
  color : Color
  page : ℤ
  width : ℚ
deriving DecidableEq, Repr

/-- Python `str.strip()`: drop leading and trailing whitespace. -/
def strip (s : String) : String :=
  String.mk
    (((s.data.dropWhile Char.isWhitespace).reverse.dropWhile
      Char.isWhitespace).reverse)

/-- One takeoff row of a panel (`panels.TakeoffPanel.add_takeoff` item dict):
the name field's text, the labor field's parse result (`none` when
`float(...)` raises), and the owned highlight items, in order. -/
structure TEntry where
  name : String
  labor : Option ℚ
  highlights : List Item
deriving DecidableEq, Repr

/-- The graphics scene, as the set of ids of the items currently in it;
`h.scene()` is truthy exactly when the item's id is a member. -/
abbrev Scene := List Nat

/-- `len([h for h in it["highlights"] if h.scene()])`: the number of the
entry's highlights whose backing canvas item still exists. -/
def liveCount (scene : Scene) (e : TEntry) : Nat :=
  (e.highlights.filter (fun h => scene.contains h.id)).length

/-- A category ledger: the panels in tab order, each with its category name
and its takeoff rows. -/
abbrev Ledger := List (String × List TEntry)

/-- `main_window._gather_highlights`, inner body: one descriptor per item,
or `none` when the item's page tag is negative (`if page < 0: continue`). -/
def gatherItem (h : Item) : Option HL :=
  if h.page < 0 then none
  else
    match h.geom with
    | .rect r => some (.rect h.page ⟨r.x0, r.y0, r.x0 + (r.x1 - r.x0), r.y0 + (r.y1 - r.y0)⟩ (h.color.take 3))
    | .line p1 p2 => some (.line h.page p1 p2 h.width (h.color.take 3))

/-- `main_window._gather_highlights`: dump every panel's every takeoff's
highlights as plain descriptors, skipping items with a negative page tag. -/
def gather_highlights (panels : Ledger) : List HL :=
  panels.flatMap (fun p => p.2.flatMap (fun t => t.highlights.filterMap gatherItem))

/-- One iteration of `MainWindow.update_summary`'s inner loop (package
variant, `takeofftool/main_window.py`): add the entry's live count times its
labor to the hours, add the count to the devices unless the panel is the
"Demo" tab, and always add it to the points. -/
def summaryStep (scene : Scene) (nm : String) (acc : ℚ × ℕ × ℕ) (it : TEntry) :
    ℚ × ℕ × ℕ :=
  (acc.1 + (liveCount scene it : ℚ) * it.labor.getD 0,
   if nm ≠ "Demo" then acc.2.1 + liveCount scene it else acc.2.1,
   acc.2.2 + liveCount scene it)

/-- `MainWindow.update_summary` (package variant): a single pass over the
panels producing (total hours, total devices, total points). -/
def update_summary (scene : Scene) (panels : Ledger) : ℚ × ℕ × ℕ :=
  panels.foldl (fun acc p => p.2.foldl (summaryStep scene p.1) acc) (0, 0, 0)

/-- The hour total as the spec states it: the sum over all entries of
live count × labor multiplier, missing labor contributing 0. -/
def totalHoursSpec (scene : Scene) (panels : Ledger) : ℚ :=
  (panels.map (fun p =>
    (p.2.map (fun it => (liveCount scene it : ℚ) * it.labor.getD 0)).sum)).sum

/-- The device total as the spec states it: the sum of live counts over all
entries, excluding the "Demo" category. -/
def totalDevicesSpec (scene : Scene) (panels : Ledger) : ℕ :=
  (panels.map (fun p =>
    if p.1 = "Demo" then 0 else (p.2.map (liveCount scene)).sum)).sum

/-- The point total as the spec states it: the sum of live counts over all
entries, the "Demo" category included. -/
def totalPointsSpec (scene : Scene) (panels : Ledger) : ℕ :=
  (panels.map (fun p => (p.2.map (liveCount scene)).sum)).sum

/-- The first collection pass of `MainWindow.save_excel`
(`takeofftool/main_window.py`), per panel: one `(stripped name, live count)`
pair per takeoff whose stripped name is non-empty. -/
def named_entries (scene : Scene) (its : List TEntry) : List (String × ℕ) :=
  its.filterMap (fun t =>
    if strip t.name = "" then none else some (strip t.name, liveCount scene t))

/-- `save_excel`'s `sections` list: panels in tab order, one (possibly
empty) entry list each. -/
def save_excel_sections (scene : Scene) (panels : Ledger) :
    List (List (String × ℕ)) :=
  panels.map (fun p => named_entries scene p.2)

/-- `save_excel`'s `total_labor` accumulator (package variant,
`takeofftool/main_window.py`): `labor * count` added for each takeoff that
survives the `if not name: continue` filter. -/
def save_excel_total_labor (scene : Scene) (panels : Ledger) : ℚ :=
  panels.foldl (fun acc p =>
    p.2.foldl (fun a t =>
      if strip t.name = "" then a
      else a + t.labor.getD 0 * (liveCount scene t : ℚ)) acc) 0

/-- `MainWindow.save`'s `total_labor` accumulator (single-file variant,
`main.py`): `labor * count` added for each takeoff that survives the
`if not name: continue` filter. -/
def main_save_total_labor (scene : Scene) (panels : Ledger) : ℚ :=
  panels.foldl (fun acc p =>
    p.2.foldl (fun a t =>
      if strip t.name = "" then a
      else a + t.labor.getD 0 * (liveCount scene t : ℚ)) acc) 0

/-- A spreadsheet cell value. -/
inductive CellVal where
  | str (s : String)
  | nat (n : ℕ)
  | num (q : ℚ)
deriving DecidableEq, Repr

/-- A written cell: (row, column, value). -/
abbrev Cell := ℕ × ℕ × CellVal

/-- The inner row loop of `save_excel`: write `(name, count)` pairs on
consecutive rows from `row`; returns the cells and the next free row. -/
def placeSection (row : ℕ) : List (String × ℕ) → List Cell × ℕ
  | [] => ([], row)
  | (n, c) :: rest =>
    let pr := placeSection (row + 1) rest
    ((row, 1, .str n) :: (row, 2, .nat c) :: pr.1, pr.2)

/-- The outer section loop of `save_excel`: lay out each section, adding one
blank row after it unless it is the last (`if idx < len(sections)`). -/
def placeSections (row : ℕ) : List (List (String × ℕ)) → List Cell × ℕ
  | [] => ([], row)
  | [s] => placeSection row s
  | s :: rest =>
    let pr := placeSection row s
    let pr2 := placeSections (pr.2 + 1) rest
    (pr.1 ++ pr2.1, pr2.2)

/-- Python `round` to an integer: round half to even. -/
def pyRound (q : ℚ) : ℤ :=
  if q - ⌊q⌋ < 1/2 then ⌊q⌋
  else if 1/2 < q - ⌊q⌋ then ⌊q⌋ + 1
  else if ⌊q⌋ % 2 = 0 then ⌊q⌋ else ⌊q⌋ + 1

/-- Python `round(x, 2)`. -/
def round2 (q : ℚ) : ℚ := (pyRound (q * 100) : ℚ) / 100

/-- `MainWindow.save_excel`: every cell written to the "Estimate" sheet, in
order: section rows starting at row 4, then the final Labor row. -/
def save_excel_cells (scene : Scene) (panels : Ledger) : List Cell :=
  let sections := save_excel_sections scene panels
  let pr := placeSections 4 sections
  pr.1 ++ [(pr.2, 1, .str "Labor"),
           (pr.2, 2, .num (round2 (save_excel_total_labor scene panels)))]

/-- The claim's layout for one section: entry `i` of the section occupies
row `start + i`, its name in column 1 and its live count in column 2. -/
def specSectionCells (start : ℕ) (sec : List (String × ℕ)) : List Cell :=
  (sec.enumFrom start).flatMap
    (fun x => [(x.1, 1, .str x.2.1), (x.1, 2, .nat x.2.2)])

/-- The claim's start row for section `i`: row 4, plus one row per earlier
entry, plus one blank separator row per earlier section. -/
def specStart (secs : List (List (String × ℕ))) (i : ℕ) : ℕ :=
  4 + ((secs.take i).map List.length).sum + i

/-- The claim's row for the final Labor row: directly after the last
section, with `secs.length - 1` blank separator rows in between and none at
the end. -/
def specLaborRow (secs : List (List (String × ℕ))) : ℕ :=
  4 + (secs.map List.length).sum + (secs.length - 1)

/-- The claim's labor total: live count × labor summed over the entries with
a non-empty (stripped) name, across all categories. -/
def totalLaborSpec (scene : Scene) (panels : Ledger) : ℚ :=
  (panels.map (fun p =>
    ((p.2.filter (fun t => strip t.name ≠ "")).map
      (fun t => t.labor.getD 0 * (liveCount scene t : ℚ))).sum)).sum

/-- An unnamed takeoff entry with labor 5 owning canvas item 7. -/
def exEntryUnnamed : TEntry :=
  ⟨"", some 5, [⟨7, .rect ⟨1, 1, 2, 2⟩, [1, 0, 0], 0, 2⟩]⟩

/-- A named takeoff entry ("sw") with labor 3 owning canvas item 8. -/
def exEntryNamed : TEntry :=
  ⟨"sw", some 3, [⟨8, .rect ⟨3, 3, 4, 4⟩, [0, 1, 0], 0, 2⟩]⟩

/-- A one-category ledger holding the two example entries. -/
def exLedger : Ledger := [("General", [exEntryUnnamed, exEntryNamed])]

/-- A scene in which both example items are live. -/
def exScene : Scene := [7, 8]

/-- `TakeoffPanel.delete_takeoff` (`takeofftool/panels.py`): first unlink
each of the entry's highlights from the scene (`if h.scene():
h.scene().removeItem(h)`), then `self.takeoff_items.remove(item)` — Python
`list.remove` removes the first equal element and raises `ValueError` when
the entry is not in the list. The first component is the scene after the
removals (which happen before any raise); the second is `some` of the new
takeoff list on success and `none` when `remove` raises. -/
def delete_takeoff (items : List TEntry) (scene : Scene) (it : TEntry) :
    Scene × Option (List TEntry) :=
  let scene' := scene.filter (fun i => !((it.highlights.map Item.id).contains i))
  (scene', if it ∈ items then some (items.erase it) else none)

/-- The state relevant to one takeoff row's count: the row's `highlights`
list of item ids in insertion order, the scene, and the fresh-id counter for
newly stamped items. -/
structure EntryState where
  highlights : List ℕ
  scene : List ℕ
  nextId : ℕ
deriving DecidableEq, Repr

/-- One canvas interaction affecting the entry's count:
`create` is a committed stamp (`stampDropped` → `handleStampDropped`
appends the new scene item to the entry's list); `ctxDelete` is the context
menu's Delete (`highlightDeleted` → `handleHighlightDeleted` removes the
item from the list, and the item is removed from the scene); `sceneRemove`
is a scene removal that bypasses the deletion signal. -/
inductive EntryOp where
  | create
  | ctxDelete (i : ℕ)
  | sceneRemove (i : ℕ)
deriving DecidableEq, Repr

/-- The effect of one interaction on the entry state. -/
def stepEntry (s : EntryState) : EntryOp → EntryState
  | .create =>
      { highlights := s.highlights ++ [s.nextId],
        scene := s.scene ++ [s.nextId],
        nextId := s.nextId + 1 }
  | .ctxDelete i =>
      { s with highlights := s.highlights.erase i, scene := s.scene.erase i }
  | .sceneRemove i => { s with scene := s.scene.erase i }

/-- Run a sequence of interactions from the fresh, empty entry. -/
def runEntry (ops : List EntryOp) : EntryState :=
  ops.foldl stepEntry ⟨[], [], 0⟩

/-- `TakeoffPanel.update_count`'s count
(`len([h for h in takeoff_item["highlights"] if h.scene()])`). -/
def entry_count (s : EntryState) : ℕ :=
  (s.highlights.filter (fun h => s.scene.contains h)).length

/-- Observable actions of `MainWindow.save_pdf` relevant to the render-pause
guard. -/
inductive SaveEv where
  | pauseRender
  | resumeRender
  | gatherSnapshot
  | runWorker
deriving DecidableEq, Repr

/-- `RenderGuard.__enter__`: stop and await the render thread only when the
window has one and it is running. `th` is `none` when there is no
`_render_thread` attribute, else `some running`. -/
def renderGuardEnter (th : Option Bool) : List SaveEv :=
  match th with
  | some true => [.pauseRender]
  | _ => []

/-- `RenderGuard.__exit__`: restart the thread whenever one exists; Python
runs `__exit__` on every exit path of the with-block, also when the body
raised. -/
def renderGuardExit (th : Option Bool) : List SaveEv :=
  match th with
  | some _ => [.resumeRender]
  | none => []

/-- `MainWindow.save_pdf` after its no-document guard: the with-statement
wraps only the `_gather_highlights` snapshot; `launch_save_worker` runs
after the block — hence after `__exit__`. When the snapshot raises
(`gatherOk = false`) the guard still exits and the worker is never invoked.
Returns the event trace and whether the save ran to completion. -/
def save_pdf_events (th : Option Bool) (gatherOk : Bool) :
    List SaveEv × Bool :=
  if gatherOk then
    (renderGuardEnter th ++ [.gatherSnapshot] ++ renderGuardExit th ++
      [.runWorker], true)
  else
    (renderGuardEnter th ++ renderGuardExit th, false)

/-- The drawing shape selector (`self.draw_shape`, "rect" or "line"). -/
inductive DrawShape where
  | rect
  | line
deriving DecidableEq, Repr

/-- Mouse buttons of interest (`QtCore.Qt.LeftButton` / `RightButton`). -/
inductive Button where
  | left
  | right
deriving DecidableEq, Repr

/-- Signals emitted (and the direct list append) during mouse handling:
`stampDropped` and `highlightDeleted` are the `PDFGraphicsView` signals;
`activeAppend` is the view's own
`self.current_takeoff["highlights"].append(...)` on the moving-commit
path. -/
inductive VEv where
  | stampDropped (it : Item)
  | highlightDeleted (it : Item)
  | activeAppend (it : Item)
deriving DecidableEq, Repr

/-- The drawing-relevant state of `PDFGraphicsView`: interaction flags, the
template slot, the moving slot, whether a takeoff is active
(`current_takeoff is not None`), the scene's item ids, the fresh id for the
next created graphics item, and the displayed page. -/
structure ViewState where
  draw_mode : Bool
  draw_shape : DrawShape
  drawing : Bool
  template_defined : Bool
  template_item : Option Item
  start_point : Option Point
  color : Color
  moving_item : Option Item
  hasTakeoff : Bool
  scene : List ℕ
  nextId : ℕ
  current_page : ℤ
deriving DecidableEq, Repr

/-- `PDFGraphicsView.setDrawingMode`: disabling removes the template from
the scene and clears the drawing flags; enabling only sets the flag. -/
def setDrawingMode (s : ViewState) (enabled : Bool) : ViewState :=
  if enabled then { s with draw_mode := true }
  else
    { s with
      draw_mode := false,
      scene := (match s.template_item with
        | some t => s.scene.erase t.id
        | none => s.scene),
      template_item := none,
      drawing := false,
      template_defined := false }

/-- `PDFGraphicsView.startMovingItem` (the Move context action): force draw
mode on, mark the template defined and not dragging, drop any previous
template that is still in the scene, install the chosen item as the
template, adopt its color and shape kind — and finally set
`self.moving_item = None`. -/
def startMovingItem (s0 : ViewState) (item : Item) : ViewState :=
  let s1 := setDrawingMode s0 true
  let s2 := { s1 with template_defined := true, drawing := false }
  let s3 := match s2.template_item with
    | some t =>
        if t.id ≠ item.id ∧ s2.scene.contains t.id then
          { s2 with scene := s2.scene.erase t.id }
        else s2
    | none => s2
  let s4 := { s3 with template_item := some item }
  let s5 := match item.geom with
    | .rect _ => { s4 with color := item.color, draw_shape := .rect }
    | .line _ _ => { s4 with color := item.color, draw_shape := .line }
  { s5 with moving_item := none }

/-- `PDFGraphicsView.mousePressEvent`: the moving-commit/discard branches,
the right-click cancel, the first-press template creation, and the stamp
branch cloning the template. `hitHighlight` is the `itemAt` oracle
(`isinstance(..., HighlightItem)`); `none` models an `AttributeError` crash
(template missing or of the wrong kind for the current shape). -/
def mousePress (s : ViewState) (btn : Button) (pos : Point)
    (hitHighlight : Bool) : Option (ViewState × List VEv) :=
  match s.moving_item with
  | some mi =>
    match btn with
    | .left =>
        if s.hasTakeoff then
          some ({ s with moving_item := none },
            [.activeAppend mi, .stampDropped mi])
        else some ({ s with moving_item := none }, [])
    | .right =>
        some ({ s with scene := s.scene.erase mi.id, moving_item := none },
          [.highlightDeleted mi])
  | none =>
    if s.draw_mode && btn == .right then
      if hitHighlight then some (s, [])
      else some (setDrawingMode s false, [])
    else if s.draw_mode && btn == .left then
      if s.template_defined then
        match s.template_item with
        | none => none
        | some t =>
          match s.draw_shape, t.geom with
          | .rect, .rect r =>
            let c : Item := ⟨s.nextId, .rect r, s.color, s.current_page, 2⟩
            some ({ s with scene := s.scene ++ [c.id], nextId := s.nextId + 1 },
              [.stampDropped c])
          | .line, .line p1 p2 =>
            let c : Item := ⟨s.nextId, .line p1 p2, s.color, s.current_page, 2⟩
            some ({ s with scene := s.scene ++ [c.id], nextId := s.nextId + 1 },
              [.stampDropped c])
          | _, _ => none
      else
        let g : Geom := (match s.draw_shape with
          | .rect => .rect ⟨pos.x, pos.y, pos.x, pos.y⟩
          | .line => .line pos pos)
        let t : Item := ⟨s.nextId, g, s.color, s.current_page, 2⟩
        some ({ s with
          drawing := true, start_point := some pos,
          template_item := some t, scene := s.scene ++ [t.id],
          nextId := s.nextId + 1 }, [])
    else some (s, [])

/-- `MainWindow.handleStampDropped`: append the stamped item to the active
takeoff's highlight list; no-op (`return`) when no takeoff is active. -/
def handleStampDropped (active : Option (List Item)) (it : Item) :
    Option (List Item) :=
  match active with
  | none => none
  | some hl => some (hl ++ [it])

/-- An existing committed rectangle shape (id 0) sitting on page 0. -/
def exMovedItem : Item := ⟨0, .rect ⟨10, 10, 50, 40⟩, [1, 0, 0], 0, 2⟩

/-- A view state with that shape in the scene, an active takeoff, and no
drawing in progress. -/
def exViewState : ViewState :=
  { draw_mode := false, draw_shape := .rect, drawing := false,
    template_defined := false, template_item := none, start_point := none,
    color := [0, 0, 1], moving_item := none, hasTakeoff := true,
    scene := [0], nextId := 1, current_page := 0 }

lemma processHL_error_of_load_page_none {d : Doc} {hl : HL}
    (h : d.load_page hl.page = none) : processHL d hl = .error () := by
  unfold processHL
  rw [h]

lemma processHighlights_error_of_mem {d : Doc} {hls : List HL} {hl : HL}
    (hmem : hl ∈ hls) (h : d.load_page hl.page = none) :
    processHighlights d hls = .error () := by
  induction hls with
  | nil => cases hmem
  | cons a rest ih =>
    rcases List.mem_cons.mp hmem with rfl | htail
    · unfold processHighlights
      rw [processHL_error_of_load_page_none h]
    · unfold processHighlights
      cases hpa : processHL d a with
      | error e => cases e; rfl
      | ok v => rw [ih htail]

/-- C1: if the save worker raises any exception while opening the document
(`doc? = none`), adding annotations (`processHighlights` errs, e.g. a bad
page index) or serializing (`saveOk = false`), then it writes a diagnostic
traceback to the log file, exits with failure status 1, and the destination
path's prior contents (if any) are left byte-identical to before the call. -/
theorem C1_worker_failure_logs_and_leaves_destination
    (fs : FS) (doc? : Option Doc) (hls : List HL) (saveOk : Bool)
    (hfail : doc? = none ∨
      (∃ d, doc? = some d ∧ processHighlights d hls = .error ()) ∨
      saveOk = false) :
    (workerMain fs doc? hls saveOk).1 = 1 ∧
    (workerMain fs doc? hls saveOk).2.dest = fs.dest ∧
    (workerMain fs doc? hls saveOk).2.log = some "traceback" := by
  rcases hfail with hopen | ⟨d, hd, herr⟩ | hsave
  · subst hopen
    exact ⟨rfl, rfl, rfl⟩
  · subst hd
    simp [workerMain, herr]
  · subst hsave
    cases doc? with
    | none => exact ⟨rfl, rfl, rfl⟩
    | some d =>
      cases hp : processHighlights d hls with
      | error e => simp [workerMain, hp]
      | ok v => simp [workerMain, hp]

/-- Witness for C1: a concrete failing run (the serialization step fails) on
a filesystem whose destination file already holds a one-page document; the
run exits 1, logs a traceback, and leaves those prior contents intact. -/
theorem C1_witness :
    ((some ⟨[⟨0, 0, 100, 100⟩]⟩ : Option Doc) = none ∨
      (∃ d, (some ⟨[⟨0, 0, 100, 100⟩]⟩ : Option Doc) = some d ∧
        processHighlights d [] = .error ()) ∨
      false = false) ∧
    ((workerMain ⟨some ⟨⟨[⟨0, 0, 50, 50⟩]⟩, []⟩, none⟩
        (some ⟨[⟨0, 0, 100, 100⟩]⟩) [] false).1 = 1 ∧
     (workerMain ⟨some ⟨⟨[⟨0, 0, 50, 50⟩]⟩, []⟩, none⟩
        (some ⟨[⟨0, 0, 100, 100⟩]⟩) [] false).2.dest =
       (⟨some ⟨⟨[⟨0, 0, 50, 50⟩]⟩, []⟩, none⟩ : FS).dest ∧
     (workerMain ⟨some ⟨⟨[⟨0, 0, 50, 50⟩]⟩, []⟩, none⟩
        (some ⟨[⟨0, 0, 100, 100⟩]⟩) [] false).2.log = some "traceback") :=
  ⟨Or.inr (Or.inr rfl),
   C1_worker_failure_logs_and_leaves_destination
     ⟨some ⟨⟨[⟨0, 0, 50, 50⟩]⟩, []⟩, none⟩
     (some ⟨[⟨0, 0, 100, 100⟩]⟩) [] false (Or.inr (Or.inr rfl))⟩

lemma rect_skip_false_iff (r : Rect) :
    ((r.isEmpty || r.width == 0 || r.height == 0) = false) ↔
      (r.x0 < r.x1 ∧ r.y0 < r.y1) := by
  constructor
  · intro h
    have h1 : r.isEmpty = false := by
      cases hE : r.isEmpty
      · rfl
      · rw [hE] at h
        simp at h
    simp only [Rect.isEmpty, Bool.or_eq_false_iff, decide_eq_false_iff_not,
      not_le] at h1
    exact h1
  · rintro ⟨h1, h2⟩
    have hE : r.isEmpty = false := by
      simp only [Rect.isEmpty, Bool.or_eq_false_iff, decide_eq_false_iff_not,
        not_le]
      exact ⟨h1, h2⟩
    have hW : (r.width == 0) = false := by
      simp only [beq_eq_false_iff_ne, ne_eq, Rect.width]
      intro hc
      have hle : r.x1 - r.x0 ≤ 0 := hc ▸ le_max_right 0 (r.x1 - r.x0)
      linarith
    have hH : (r.height == 0) = false := by
      simp only [beq_eq_false_iff_ne, ne_eq, Rect.height]
      intro hc
      have hle : r.y1 - r.y0 ≤ 0 := hc ▸ le_max_right 0 (r.y1 - r.y0)
      linarith
    rw [hE, hW, hH]
    rfl

lemma inter_eq_self_of_inside {rc pr : Rect}
    (hx0 : pr.x0 ≤ rc.x0) (hx1 : rc.x1 ≤ pr.x1)
    (hy0 : pr.y0 ≤ rc.y0) (hy1 : rc.y1 ≤ pr.y1) :
    rc.inter pr = rc := by
  simp only [Rect.inter]
  cases rc
  simp_all [max_eq_left, min_eq_left]

lemma load_page_of_in_range {d : Doc} {p : ℤ}
    (hp : 0 ≤ p ∧ p < (d.page_count : ℤ)) : d.load_page p = some p.toNat := by
  simp [Doc.load_page, hp.1, hp.2]

/-- C2: for a rectangle descriptor naming an in-range page, the worker adds a
filled rectangle annotation (fill = the descriptor's clamped color, no
stroke) if and only if the intersection of the descriptor's rectangle with
the page's bounds is non-empty with nonzero width and height; a rectangle
fully inside the page yields exactly one annotation at that exact location,
and otherwise (entirely outside the page, or zero-area) the descriptor is
skipped silently, leaving the page unchanged. -/
theorem C2_rect_annotation_iff_clip_nonempty
    (d : Doc) (p : ℤ) (rc : Rect) (c : Color)
    (hp : 0 ≤ p ∧ p < (d.page_count : ℤ)) :
    (processHL d (.rect p rc c) =
      if (rc.inter (d.pages.getD p.toNat default)).x0 <
           (rc.inter (d.pages.getD p.toNat default)).x1 ∧
         (rc.inter (d.pages.getD p.toNat default)).y0 <
           (rc.inter (d.pages.getD p.toNat default)).y1
       then .ok [.rect p.toNat (rc.inter (d.pages.getD p.toNat default))
                  (safe_color c)]
       else .ok []) ∧
    ((d.pages.getD p.toNat default).x0 ≤ rc.x0 →
     rc.x1 ≤ (d.pages.getD p.toNat default).x1 →
     (d.pages.getD p.toNat default).y0 ≤ rc.y0 →
     rc.y1 ≤ (d.pages.getD p.toNat default).y1 →
     rc.x0 < rc.x1 → rc.y0 < rc.y1 →
     processHL d (.rect p rc c) = .ok [.rect p.toNat rc (safe_color c)]) := by
  have hload : d.load_page (HL.rect p rc c).page = some p.toNat :=
    load_page_of_in_range hp
  have hmain : processHL d (.rect p rc c) =
      if (rc.inter (d.pages.getD p.toNat default)).x0 <
           (rc.inter (d.pages.getD p.toNat default)).x1 ∧
         (rc.inter (d.pages.getD p.toNat default)).y0 <
           (rc.inter (d.pages.getD p.toNat default)).y1
       then .ok [.rect p.toNat (rc.inter (d.pages.getD p.toNat default))
                  (safe_color c)]
       else .ok [] := by
    have hred : processHL d (.rect p rc c) =
        (if ((rc.inter (d.pages.getD p.toNat default)).isEmpty ||
             (rc.inter (d.pages.getD p.toNat default)).width == 0 ||
             (rc.inter (d.pages.getD p.toNat default)).height == 0)
         then (.ok [] : Except Unit (List Annot))
         else .ok [.rect p.toNat (rc.inter (d.pages.getD p.toNat default))
                    (safe_color c)]) := by
      unfold processHL
      rw [hload]
    rw [hred]
    by_cases hpos : (rc.inter (d.pages.getD p.toNat default)).x0 <
           (rc.inter (d.pages.getD p.toNat default)).x1 ∧
         (rc.inter (d.pages.getD p.toNat default)).y0 <
           (rc.inter (d.pages.getD p.toNat default)).y1
    · rw [(rect_skip_false_iff _).mpr hpos]
      rw [if_pos hpos]
      simp
    · have hb : ((rc.inter (d.pages.getD p.toNat default)).isEmpty ||
          (rc.inter (d.pages.getD p.toNat default)).width == 0 ||
          (rc.inter (d.pages.getD p.toNat default)).height == 0) = true := by
        rcases Bool.eq_false_or_eq_true
            ((rc.inter (d.pages.getD p.toNat default)).isEmpty ||
             (rc.inter (d.pages.getD p.toNat default)).width == 0 ||
             (rc.inter (d.pages.getD p.toNat default)).height == 0)
          with htrue | hfalse
        · exact htrue
        · exact absurd ((rect_skip_false_iff _).mp hfalse) hpos
      rw [hb]
      rw [if_neg hpos]
      simp
  refine ⟨hmain, fun hx0 hx1 hy0 hy1 hwx hwy => ?_⟩
  rw [hmain, inter_eq_self_of_inside hx0 hx1 hy0 hy1, if_pos ⟨hwx, hwy⟩]

/-- Witness for C2: a one-page document with bounds (0,0)-(100,100) and the
rectangle (10,10)-(50,40) fully inside it: the worker emits exactly one
filled rectangle annotation at that location. -/
theorem C2_witness :
    ((0 : ℤ) ≤ 0 ∧ (0 : ℤ) < ((Doc.mk [⟨0, 0, 100, 100⟩]).page_count : ℤ)) ∧
    processHL (Doc.mk [⟨0, 0, 100, 100⟩])
        (.rect 0 ⟨10, 10, 50, 40⟩ [1, 0, 0]) =
      .ok [.rect 0 ⟨10, 10, 50, 40⟩ (safe_color [1, 0, 0])] :=
  ⟨⟨le_refl 0, by norm_num [Doc.page_count]⟩,
   (C2_rect_annotation_iff_clip_nonempty (Doc.mk [⟨0, 0, 100, 100⟩]) 0
      ⟨10, 10, 50, 40⟩ [1, 0, 0]
      ⟨le_refl 0, by norm_num [Doc.page_count]⟩).2
     (by norm_num) (by norm_num) (by norm_num) (by norm_num)
     (by norm_num) (by norm_num)⟩

/-- C10: the save worker is all-or-nothing with respect to invalid page
indices: if any descriptor in the request names a page the document cannot
load, the whole save fails with exit status 1 and the destination file keeps
its prior contents, so no annotation from the remaining valid descriptors is
persisted; and negative page indices never reach the worker, because
`_gather_highlights` drops every item whose page attribute is below zero. -/
theorem C10_worker_all_or_nothing_on_bad_page
    (fs : FS) (d : Doc) (hls : List HL) (saveOk : Bool) (panels : Ledger)
    (hbad : ∃ hl ∈ hls, d.load_page hl.page = none) :
    ((workerMain fs (some d) hls saveOk).1 = 1 ∧
     (workerMain fs (some d) hls saveOk).2.dest = fs.dest) ∧
    (∀ hl ∈ gather_highlights panels, 0 ≤ hl.page) := by
  constructor
  · obtain ⟨hl, hmem, hnone⟩ := hbad
    have herr := processHighlights_error_of_mem hmem hnone
    simp [workerMain, herr]
  · intro hl hmem
    simp only [gather_highlights, List.mem_flatMap, List.mem_filterMap] at hmem
    obtain ⟨p, -, t, -, h, -, hgi⟩ := hmem
    unfold gatherItem at hgi
    by_cases hneg : h.page < 0
    · rw [if_pos hneg] at hgi
      cases hgi
    · rw [if_neg hneg] at hgi
      push_neg at hneg
      cases hg : h.geom with
      | rect r =>
        rw [hg] at hgi
        cases hgi
        simpa [HL.page] using hneg
      | line p1 p2 =>
        rw [hg] at hgi
        cases hgi
        simpa [HL.page] using hneg

/-- Witness for C10: a request with one in-bounds rectangle on page 0 and one
rectangle naming page 5 of a one-page document: the run fails and the
destination keeps its prior contents, and a concrete panel set with items on
pages -1 and 0 gathers only non-negative page indices. -/
theorem C10_witness :
    (∃ hl ∈ [HL.rect 0 ⟨10, 10, 50, 40⟩ [1, 0, 0],
             HL.rect 5 ⟨10, 10, 50, 40⟩ [0, 1, 0]],
       (Doc.mk [⟨0, 0, 100, 100⟩]).load_page hl.page = none) ∧
    (((workerMain ⟨some ⟨⟨[⟨0, 0, 50, 50⟩]⟩, []⟩, none⟩
        (some (Doc.mk [⟨0, 0, 100, 100⟩]))
        [HL.rect 0 ⟨10, 10, 50, 40⟩ [1, 0, 0],
         HL.rect 5 ⟨10, 10, 50, 40⟩ [0, 1, 0]] true).1 = 1 ∧
      (workerMain ⟨some ⟨⟨[⟨0, 0, 50, 50⟩]⟩, []⟩, none⟩
        (some (Doc.mk [⟨0, 0, 100, 100⟩]))
        [HL.rect 0 ⟨10, 10, 50, 40⟩ [1, 0, 0],
         HL.rect 5 ⟨10, 10, 50, 40⟩ [0, 1, 0]] true).2.dest =
        (⟨some ⟨⟨[⟨0, 0, 50, 50⟩]⟩, []⟩, none⟩ : FS).dest) ∧
     (∀ hl ∈ gather_highlights
        [("General", [⟨"sw", some 1,
           [⟨0, .rect ⟨1, 1, 2, 2⟩, [1, 0, 0, 1], -1, 2⟩,
            ⟨1, .rect ⟨3, 3, 9, 9⟩, [0, 1, 0, 1], 0, 2⟩]⟩])],
        0 ≤ hl.page)) :=
  ⟨⟨HL.rect 5 ⟨10, 10, 50, 40⟩ [0, 1, 0], by simp, by decide⟩,
   C10_worker_all_or_nothing_on_bad_page _ _ _ _ _
     ⟨HL.rect 5 ⟨10, 10, 50, 40⟩ [0, 1, 0], by simp, by decide⟩⟩

lemma summary_inner_foldl (scene : Scene) (nm : String) (its : List TEntry) :
    ∀ acc : ℚ × ℕ × ℕ,
      its.foldl (summaryStep scene nm) acc =
        (acc.1 + (its.map (fun it => (liveCount scene it : ℚ) * it.labor.getD 0)).sum,
         acc.2.1 + (if nm = "Demo" then 0 else (its.map (liveCount scene)).sum),
         acc.2.2 + (its.map (liveCount scene)).sum) := by
  induction its with
  | nil => intro acc; simp
  | cons it rest ih =>
    intro acc
    rw [List.foldl_cons, ih]
    by_cases hnm : nm = "Demo"
    · simp [summaryStep, hnm, Prod.ext_iff]
      refine ⟨by ring, by omega⟩
    · simp [summaryStep, hnm, Prod.ext_iff]
      refine ⟨by ring, by omega, by omega⟩

lemma summary_outer_foldl (scene : Scene) (panels : Ledger) :
    ∀ acc : ℚ × ℕ × ℕ,
      panels.foldl (fun acc p => p.2.foldl (summaryStep scene p.1) acc) acc =
        (acc.1 + totalHoursSpec scene panels,
         acc.2.1 + totalDevicesSpec scene panels,
         acc.2.2 + totalPointsSpec scene panels) := by
  induction panels with
  | nil => intro acc; simp [totalHoursSpec, totalDevicesSpec, totalPointsSpec]
  | cons p rest ih =>
    intro acc
    rw [List.foldl_cons, summary_inner_foldl, ih]
    by_cases hnm : p.1 = "Demo"
    · simp [totalHoursSpec, totalDevicesSpec, totalPointsSpec, hnm, Prod.ext_iff]
      refine ⟨by ring, by omega⟩
    · simp [totalHoursSpec, totalDevicesSpec, totalPointsSpec, hnm, Prod.ext_iff]
      refine ⟨by ring, by omega, by omega⟩

/-- C5: `update_summary` returns exactly the spec's three totals: total
hours is the sum over all entries of live count × labor (missing or
unparsable labor counting 0), total devices is the sum of live counts
excluding the "Demo" category, and total points is the same sum including
"Demo". -/
theorem C5_update_summary_totals (scene : Scene) (panels : Ledger) :
    update_summary scene panels =
      (totalHoursSpec scene panels,
       totalDevicesSpec scene panels,
       totalPointsSpec scene panels) := by
  unfold update_summary
  rw [summary_outer_foldl]
  simp

lemma named_entries_eq_filter_map (scene : Scene) (its : List TEntry) :
    named_entries scene its =
      (its.filter (fun t => strip t.name ≠ "")).map
        (fun t => (strip t.name, liveCount scene t)) := by
  induction its with
  | nil => rfl
  | cons t rest ih =>
    by_cases h : strip t.name = "" <;>
      simp [named_entries, List.filterMap_cons, List.filter_cons, h] <;>
      simpa [named_entries] using ih

lemma labor_inner_foldl (scene : Scene) (its : List TEntry) :
    ∀ acc : ℚ,
      its.foldl (fun a t =>
        if strip t.name = "" then a
        else a + t.labor.getD 0 * (liveCount scene t : ℚ)) acc =
      acc + ((its.filter (fun t => strip t.name ≠ "")).map
        (fun t => t.labor.getD 0 * (liveCount scene t : ℚ))).sum := by
  induction its with
  | nil => intro acc; simp
  | cons t rest ih =>
    intro acc
    by_cases h : strip t.name = ""
    · simp [List.foldl_cons, List.filter_cons, h, ih]
    · simp [List.foldl_cons, List.filter_cons, h, ih]
      ring

lemma labor_outer_foldl (scene : Scene) (panels : Ledger) :
    ∀ acc : ℚ,
      panels.foldl (fun acc p =>
        p.2.foldl (fun a t =>
          if strip t.name = "" then a
          else a + t.labor.getD 0 * (liveCount scene t : ℚ)) acc) acc =
      acc + totalLaborSpec scene panels := by
  induction panels with
  | nil => intro acc; simp [totalLaborSpec]
  | cons p rest ih =>
    intro acc
    rw [List.foldl_cons, labor_inner_foldl, ih]
    simp [totalLaborSpec]
    ring

lemma save_excel_total_labor_eq_spec (scene : Scene) (panels : Ledger) :
    save_excel_total_labor scene panels = totalLaborSpec scene panels := by
  unfold save_excel_total_labor
  rw [labor_outer_foldl]
  simp

lemma enumFrom_succ_shift {α : Type} (n : ℕ) (l : List α) :
    l.enumFrom (n + 1) = (l.enumFrom n).map (fun x => (x.1 + 1, x.2)) := by
  induction l generalizing n with
  | nil => rfl
  | cons a as ih => simp [List.enumFrom, ih]

lemma enumFrom_one_shift {α : Type} (l : List α) :
    l.enumFrom 1 = l.enum.map (fun x => (x.1 + 1, x.2)) := by
  simpa [List.enum] using enumFrom_succ_shift 0 l

lemma placeSection_eq (sec : List (String × ℕ)) :
    ∀ row, placeSection row sec = (specSectionCells row sec, row + sec.length) := by
  induction sec with
  | nil => intro row; simp [placeSection, specSectionCells, List.enumFrom]
  | cons e rest ih =>
    intro row
    obtain ⟨n, c⟩ := e
    rw [placeSection, ih (row + 1)]
    refine Prod.ext ?_ (by simp; omega)
    simp [specSectionCells, List.enumFrom]

lemma spec_flatMap_cons (row : ℕ) (s : List (String × ℕ))
    (rest : List (List (String × ℕ))) :
    (s :: rest).enum.flatMap (fun x =>
        specSectionCells ((row + (((s :: rest).take x.1).map List.length).sum) + x.1) x.2) =
      specSectionCells row s ++
        rest.enum.flatMap (fun x =>
          specSectionCells ((((row + s.length) + 1) +
            ((rest.take x.1).map List.length).sum) + x.1) x.2) := by
  have hfun : (fun a : ℕ × List (String × ℕ) =>
      specSectionCells
        ((row + (((s :: rest).take (a.1 + 1)).map List.length).sum) +
          (a.1 + 1)) a.2) =
      (fun a : ℕ × List (String × ℕ) =>
        specSectionCells ((((row + s.length) + 1) +
          ((rest.take a.1).map List.length).sum) + a.1) a.2) := by
    funext a
    have ht : ((s :: rest).take (a.1 + 1)).map List.length =
        s.length :: (rest.take a.1).map List.length := by
      rw [List.take_succ_cons, List.map_cons]
    rw [ht, List.sum_cons]
    congr 1
    omega
  rw [List.enum_cons, List.flatMap_cons, enumFrom_one_shift, List.flatMap_map]
  refine congrArg₂ (· ++ ·) ?_ ?_
  · show specSectionCells
        ((row + (((s :: rest).take 0).map List.length).sum) + 0) s =
      specSectionCells row s
    simp
  · exact congrArg _ hfun

lemma placeSections_eq (secs : List (List (String × ℕ))) :
    ∀ row, placeSections row secs =
      (secs.enum.flatMap (fun x =>
         specSectionCells ((row + ((secs.take x.1).map List.length).sum) + x.1) x.2),
       (row + (secs.map List.length).sum) + (secs.length - 1)) := by
  induction secs with
  | nil => intro row; simp [placeSections]
  | cons s rest ih =>
    cases rest with
    | nil =>
      intro row
      rw [show placeSections row [s] = placeSection row s from rfl,
        placeSection_eq]
      simp [List.enum]
    | cons r rest' =>
      intro row
      rw [show placeSections row (s :: r :: rest') =
            ((placeSection row s).1 ++
              (placeSections ((placeSection row s).2 + 1) (r :: rest')).1,
             (placeSections ((placeSection row s).2 + 1) (r :: rest')).2)
          from rfl,
        placeSection_eq, ih]
      dsimp only
      refine Prod.ext ?_ (by simp; omega)
      conv_rhs => rw [spec_flatMap_cons]

/-- C6: the spreadsheet export writes, per category in tab order, one row
`(stripped name, live count)` for each entry with a non-empty name (a named
entry with count 0 included, unnamed entries omitted), sections starting at
row 4 with entry `i` of section `k` on row `specStart k + i`; exactly one
blank separator row lies between consecutive sections and none after the
last, so the final row — `("Labor", round(total_labor, 2))` with
`total_labor` summed over the named entries of all categories — lands on row
`4 + (total entry rows) + (number of sections - 1)`. -/
theorem C6_save_excel_layout (scene : Scene) (panels : Ledger) :
    save_excel_cells scene panels =
      (save_excel_sections scene panels).enum.flatMap (fun x =>
        specSectionCells (specStart (save_excel_sections scene panels) x.1) x.2)
      ++ [(specLaborRow (save_excel_sections scene panels), 1, .str "Labor"),
          (specLaborRow (save_excel_sections scene panels), 2,
           .num (round2 (totalLaborSpec scene panels)))] ∧
    save_excel_sections scene panels =
      panels.map (fun p =>
        (p.2.filter (fun t => strip t.name ≠ "")).map
          (fun t => (strip t.name, liveCount scene t))) ∧
    save_excel_total_labor scene panels = totalLaborSpec scene panels := by
  refine ⟨?_, ?_, save_excel_total_labor_eq_spec scene panels⟩
  · rw [show save_excel_cells scene panels =
        (placeSections 4 (save_excel_sections scene panels)).1 ++
        [((placeSections 4 (save_excel_sections scene panels)).2, 1,
          CellVal.str "Labor"),
         ((placeSections 4 (save_excel_sections scene panels)).2, 2,
          CellVal.num (round2 (save_excel_total_labor scene panels)))]
        from rfl,
      placeSections_eq, save_excel_total_labor_eq_spec]
    rfl
  · unfold save_excel_sections
    exact List.map_congr_left (fun p _ => named_entries_eq_filter_map scene p.2)

/-- C7 counterexample: on a ledger that contains an unnamed entry with labor
multiplier 5 and one live shape (item 7), the single-file variant's and the
package variant's labor totals coincide (both ignore the unnamed entry and
yield 3), so the two implementations are not inequivalent on such inputs as
the claim states. -/
theorem C7_counterexample :
    (∃ p ∈ exLedger, ∃ t ∈ p.2, strip t.name = "" ∧ t.labor.getD 0 ≠ 0 ∧
        1 ≤ liveCount exScene t) ∧
    main_save_total_labor exScene exLedger =
      save_excel_total_labor exScene exLedger := by
  refine ⟨⟨("General", [exEntryUnnamed, exEntryNamed]), ?_, exEntryUnnamed,
    ?_, by decide, by decide, by decide⟩, rfl⟩
  · simp [exLedger]
  · simp [exEntryUnnamed]

/-- C7 (amended): the single-file variant (`main.py` `MainWindow.save`) and
the package variant (`takeofftool/main_window.py` `MainWindow.save_excel`)
compute `total_labor` by the same rule — live count × labor summed over the
entries with a non-empty stripped name only — and therefore agree on every
input, including inputs containing unnamed entries with nonzero labor. -/
theorem C7_total_labor_variants_agree (scene : Scene) (panels : Ledger) :
    main_save_total_labor scene panels = save_excel_total_labor scene panels ∧
    main_save_total_labor scene panels = totalLaborSpec scene panels :=
  ⟨rfl, save_excel_total_labor_eq_spec scene panels⟩

/-- C8 counterexample: deleting the example unnamed entry from an empty
takeoff list raises (`none`) and is not a no-op — its shape (item 7) is
still removed from the scene before the raise — contradicting the claim
that this call is an idempotent no-op that does not fail. -/
theorem C8_counterexample :
    delete_takeoff [] [5, 7] exEntryUnnamed ≠ ([5, 7], some []) ∧
    (delete_takeoff [] [5, 7] exEntryUnnamed).2 = none ∧
    (delete_takeoff [] [5, 7] exEntryUnnamed).1 = [5] := by decide

/-- C8 (amended): `delete_takeoff` on an entry that is not in the category's
ordered list is not a no-op: it still unlinks all of the entry's shapes from
the scene, and then fails with `ValueError` from `list.remove` instead of
returning normally. -/
theorem C8_delete_absent_raises (items : List TEntry) (scene : Scene)
    (it : TEntry) (h : it ∉ items) :
    (delete_takeoff items scene it).2 = none ∧
    (delete_takeoff items scene it).1 =
      scene.filter (fun i => !((it.highlights.map Item.id).contains i)) := by
  simp [delete_takeoff, h]

/-- Witness for C8 (amended): deleting the unnamed example entry from a list
holding only the named one raises and strips item 7 from the scene. -/
theorem C8_witness :
    exEntryUnnamed ∉ [exEntryNamed] ∧
    ((delete_takeoff [exEntryNamed] [5, 7] exEntryUnnamed).2 = none ∧
     (delete_takeoff [exEntryNamed] [5, 7] exEntryUnnamed).1 =
       [5, 7].filter
         (fun i => !((exEntryUnnamed.highlights.map Item.id).contains i))) :=
  ⟨by decide, C8_delete_absent_raises [exEntryNamed] [5, 7] exEntryUnnamed
    (by decide)⟩

lemma filter_erase_of_neg {p : ℕ → Bool} {i : ℕ} (hp : p i = false) :
    ∀ l : List ℕ, (l.erase i).filter p = l.filter p := by
  intro l
  induction l with
  | nil => rfl
  | cons a l ih =>
    by_cases ha : a = i
    · subst ha
      rw [List.erase_cons_head, List.filter_cons, hp]
      simp
    · rw [List.erase_cons_tail (by simpa using ha), List.filter_cons,
        List.filter_cons, ih]

/-- C9: for every sequence of create/delete interactions on an entry, the
count that `update_count` computes equals the number of shapes in the
entry's highlight list whose backing canvas object still exists (a natural
number, hence never negative), and a shape that has been removed from the
scene contributes nothing to the count even when it is still present in the
entry's highlight list. -/
theorem C9_entry_count_live_shapes (ops : List EntryOp) :
    entry_count (runEntry ops) =
      (runEntry ops).highlights.countP
        (fun h => decide (h ∈ (runEntry ops).scene)) ∧
    (∀ i ∈ (runEntry ops).highlights, i ∉ (runEntry ops).scene →
      entry_count { runEntry ops with
          highlights := (runEntry ops).highlights.erase i } =
        entry_count (runEntry ops)) := by
  constructor
  · rw [entry_count, List.countP_eq_length_filter]
    congr 1
    apply List.filter_congr
    intro h _
    simp [List.elem_iff]
  · intro i _ hnot
    unfold entry_count
    simp only []
    rw [filter_erase_of_neg]
    simpa [List.elem_iff] using hnot

/-- Witness for C9: after two stamps and a signal-less scene removal of item
0, item 0 is still in the highlight list but dead, and erasing it from the
list leaves the count unchanged (both sides count only item 1). -/
theorem C9_witness :
    ((0 ∈ (runEntry [.create, .create, .sceneRemove 0]).highlights ∧
      0 ∉ (runEntry [.create, .create, .sceneRemove 0]).scene) ∧
     entry_count { runEntry [.create, .create, .sceneRemove 0] with
         highlights :=
           (runEntry [.create, .create, .sceneRemove 0]).highlights.erase 0 } =
       entry_count (runEntry [.create, .create, .sceneRemove 0])) :=
  ⟨⟨by decide, by decide⟩,
   (C9_entry_count_live_shapes [.create, .create, .sceneRemove 0]).2 0
     (by decide) (by decide)⟩

/-- C3 counterexample: with a running render thread and a successful
snapshot, the save trace is pause, snapshot, resume, worker — the render
thread is resumed strictly before the worker is invoked, so the pause does
not cover the worker invocation and resumption does not wait for the
worker's outcome, contrary to the claim. -/
theorem C3_counterexample :
    (save_pdf_events (some true) true).1 =
      [.pauseRender, .gatherSnapshot, .resumeRender, .runWorker] ∧
    ¬ ((save_pdf_events (some true) true).1.indexOf SaveEv.runWorker <
       (save_pdf_events (some true) true).1.indexOf SaveEv.resumeRender) := by
  decide

/-- C3 (amended): the render-pause guard's scope covers only the highlight
snapshot, not the worker invocation: the guard's release runs on every exit
path (also when the snapshot raises, in which case the worker is never
invoked), and in a completed save with a running render thread the trace is
exactly pause, snapshot, resume, worker — rendering is resumed before the
worker starts. -/
theorem C3_guard_scope_is_snapshot_only (th : Option Bool) (g : Bool) :
    (∀ b, th = some b → SaveEv.resumeRender ∈ (save_pdf_events th g).1) ∧
    (g = false → SaveEv.runWorker ∉ (save_pdf_events th g).1) ∧
    (th = some true → g = true →
      (save_pdf_events th g).1 =
        [.pauseRender, .gatherSnapshot, .resumeRender, .runWorker]) := by
  refine ⟨?_, ?_, ?_⟩
  · rintro b rfl
    cases b <;> cases g <;> decide
  · rintro rfl
    cases th with
    | none => decide
    | some b => cases b <;> decide
  · rintro rfl rfl
    decide

/-- Witness for C3 (amended): the concrete run with a running thread and a
successful snapshot — the release event is in the trace and the trace is
the pause/snapshot/resume/worker sequence. -/
theorem C3_witness :
    (SaveEv.resumeRender ∈ (save_pdf_events (some true) true).1 ∧
     (save_pdf_events (some true) true).1 =
       [.pauseRender, .gatherSnapshot, .resumeRender, .runWorker]) :=
  ⟨(C3_guard_scope_is_snapshot_only (some true) true).1 true rfl,
   (C3_guard_scope_is_snapshot_only (some true) true).2.2 rfl rfl⟩

lemma startMovingItem_fields (s : ViewState) (i : Item) :
    startMovingItem s i =
      { s with
        draw_mode := true,
        template_defined := true,
        drawing := false,
        template_item := some i,
        color := i.color,
        draw_shape := (match i.geom with
          | .rect _ => .rect
          | .line _ _ => .line),
        moving_item := none,
        scene := (match s.template_item with
          | some t =>
              if t.id ≠ i.id ∧ s.scene.contains t.id then s.scene.erase t.id
              else s.scene
          | none => s.scene) } := by
  cases hti : s.template_item with
  | none =>
    cases hgi : i.geom <;>
      simp [startMovingItem, setDrawingMode, hti, hgi]
  | some t =>
    cases hgi : i.geom <;>
      simp only [startMovingItem, setDrawingMode, hti, hgi, if_true] <;>
      split <;>
      simp_all

/-- C4 counterexample: choosing Move on the example shape leaves
`moving_item = None` — the machine is *not* in the Moving state with the
shape as payload — and the next primary-button press emits `stampDropped`
for a freshly created clone (id 1), not for the moved shape (id 0), so the
moved shape itself is never re-appended. -/
theorem C4_counterexample :
    (startMovingItem exViewState exMovedItem).moving_item ≠ some exMovedItem ∧
    (startMovingItem exViewState exMovedItem).moving_item = none ∧
    (mousePress (startMovingItem exViewState exMovedItem) .left ⟨55, 55⟩
        false).map Prod.snd =
      some [VEv.stampDropped ⟨1, .rect ⟨10, 10, 50, 40⟩, [1, 0, 0], 0, 2⟩] ∧
    (⟨1, .rect ⟨10, 10, 50, 40⟩, [1, 0, 0], 0, 2⟩ : Item) ≠ exMovedItem := by
  decide

/-- C4 (amended): after the Move context action on an existing shape the
machine is not in a Moving state — `startMovingItem` ends by clearing
`moving_item` — and instead the shape becomes the active template (draw
mode on, template defined, not dragging, the shape's color adopted). The
next primary-button press therefore takes the template-stamp path: it
creates a fresh clone of the shape's geometry and color at the template's
position, adds it to the scene, and emits "shape created" for the clone,
which `handleStampDropped` appends to the active entry's list; the moved
shape itself is not appended. -/
theorem C4_move_clears_moving_and_stamps_clone (s : ViewState) (i : Item)
    (hfresh : i.id < s.nextId) :
    (startMovingItem s i).moving_item = none ∧
    (startMovingItem s i).draw_mode = true ∧
    (startMovingItem s i).template_defined = true ∧
    (startMovingItem s i).drawing = false ∧
    (startMovingItem s i).template_item = some i ∧
    (startMovingItem s i).color = i.color ∧
    (startMovingItem s i).nextId = s.nextId ∧
    ∀ pos hit, ∃ c : Item,
      mousePress (startMovingItem s i) .left pos hit =
        some ({ startMovingItem s i with
                scene := (startMovingItem s i).scene ++ [c.id],
                nextId := (startMovingItem s i).nextId + 1 },
              [.stampDropped c]) ∧
      c.geom = i.geom ∧ c.color = i.color ∧ c.id = s.nextId ∧ c ≠ i ∧
      (∀ hl, handleStampDropped (some hl) c = some (hl ++ [c])) := by
  rw [startMovingItem_fields]
  cases hgi : i.geom with
  | rect r =>
    refine ⟨rfl, rfl, rfl, rfl, rfl, rfl, rfl, ?_⟩
    intro pos hit
    refine ⟨⟨s.nextId, .rect r, i.color, s.current_page, 2⟩,
      ?_, by simp [hgi], rfl, rfl, ?_, fun hl => rfl⟩
    · simp [mousePress, hgi]
    · intro hc
      have := congrArg Item.id hc
      simp at this
      omega
  | line p1 p2 =>
    refine ⟨rfl, rfl, rfl, rfl, rfl, rfl, rfl, ?_⟩
    intro pos hit
    refine ⟨⟨s.nextId, .line p1 p2, i.color, s.current_page, 2⟩,
      ?_, by simp [hgi], rfl, rfl, ?_, fun hl => rfl⟩
    · simp [mousePress, hgi]
    · intro hc
      have := congrArg Item.id hc
      simp at this
      omega

/-- Witness for C4 (amended): moving the example shape (id 0, fresh counter
1) yields the template state and the clone-stamping press concretely. -/
theorem C4_witness :
    exMovedItem.id < exViewState.nextId ∧
    ((startMovingItem exViewState exMovedItem).moving_item = none ∧
     (startMovingItem exViewState exMovedItem).draw_mode = true ∧
     (startMovingItem exViewState exMovedItem).template_defined = true ∧
     (startMovingItem exViewState exMovedItem).drawing = false ∧
     (startMovingItem exViewState exMovedItem).template_item =
       some exMovedItem ∧
     (startMovingItem exViewState exMovedItem).color = exMovedItem.color ∧
     (startMovingItem exViewState exMovedItem).nextId =
       exViewState.nextId ∧
     ∀ pos hit, ∃ c : Item,
       mousePress (startMovingItem exViewState exMovedItem) .left pos hit =
         some ({ startMovingItem exViewState exMovedItem with
                 scene :=
                   (startMovingItem exViewState exMovedItem).scene ++ [c.id],
                 nextId :=
                   (startMovingItem exViewState exMovedItem).nextId + 1 },
               [.stampDropped c]) ∧
       c.geom = exMovedItem.geom ∧ c.color = exMovedItem.color ∧
       c.id = exViewState.nextId ∧ c ≠ exMovedItem ∧
       (∀ hl, handleStampDropped (some hl) c = some (hl ++ [c]))) :=
  ⟨by decide,
   C4_move_clears_moving_and_stamps_clone exViewState exMovedItem (by decide)⟩

end Takeoff
